import Mathlib

/-!
Shallow embedding of the runcached program (src/runcached), centred on
main.py: the RunConfig and RunResult dataclasses, the run_with_caching
controller over the cache store, the argument record of the subprocess.run
spawn, the output capture and replay of RunResult.write, the environment
filtering of CliArgs.EnvFilterer and EnvArg.filter_envvars, and the
NAME=value parsing of EnvArg.from_env_arg in args.py.

External collaborators (the diskcache store, subprocess.run, the fnmatch
and shlex standard library helpers) are modelled by their documented
behaviour at the exact call sites the source uses.
-/

namespace Runcached

/-- Python dict of environment variables, modelled as an insertion-ordered
association list with unique keys, the way CPython dicts behave. -/
abbrev Env := List (String × String)

/-- Python `d.get(k)`: the value at the first matching key, if any. -/
def dictGet (e : Env) (k : String) : Option String :=
  (e.find? (fun p => p.1 == k)).map (fun p => p.2)

/-- Python `{ **e, k: v }`: when the key exists its value is replaced in
place, otherwise the new binding is appended at the end. -/
def dictInsert (e : Env) (k v : String) : Env :=
  if e.any (fun p => p.1 == k) then e.map (fun p => if p.1 == k then (p.1, v) else p)
  else e ++ [(k, v)]

/-- Python `==` on dicts: the same keys bound to the same values,
independent of insertion order. -/
def dictEqb (a b : Env) : Bool :=
  a.all (fun p => dictGet a p.1 == dictGet b p.1)
    && b.all (fun p => dictGet a p.1 == dictGet b p.1)

/-- Core loop of Python fnmatch.fnmatchcase for patterns built from
literal characters, the star and the question mark; bracket classes are not
used by any pattern in this repository's call sites and are left out. The
first argument is fuel bounding the recursion depth; pattern length plus
string length plus one always suffices to reach the answer, since every
step consumes a pattern or a string character. -/
def globMatchFuel : Nat → List Char → List Char → Bool
  | 0, _, _ => false
  | _ + 1, [], s => s.isEmpty
  | n + 1, '*' :: ps, s =>
      globMatchFuel n ps s ||
        (match s with
          | [] => false
          | _ :: ss => globMatchFuel n ('*' :: ps) ss)
  | n + 1, '?' :: ps, s =>
      (match s with
        | [] => false
        | _ :: ss => globMatchFuel n ps ss)
  | n + 1, p :: ps, s =>
      (match s with
        | [] => false
        | c :: ss => p == c && globMatchFuel n ps ss)

/-- Python fnmatch.fnmatchcase(name, pat): anchored glob match. -/
def fnmatchcase (name pat : String) : Bool :=
  globMatchFuel (pat.length + name.length + 1) pat.toList name.toList

/-- RunConfig of main.py (frozen dataclass): cmd, env, input, shell and
custom_cache_key. -/
structure RunConfig where
  cmd : List String
  env : Env
  input : Option String
  shell : Bool
  custom_cache_key : Option String
deriving DecidableEq

/-- RunResult of main.py: started_at (a wall-clock instant, as an integer
tick count), return_code, and the captured stdout and stderr texts. -/
structure RunResult where
  started_at : Int
  return_code : Int
  stdout : Option String
  stderr : Option String
deriving DecidableEq

/-- CLI flags of main.py consumed by run_with_caching: ttl (as ticks),
custom_key and keep_failures. -/
structure CliArgsM where
  ttl : Int
  custom_key : Bool
  keep_failures : Bool
deriving DecidableEq

/-- Observable outcome of one child execution: exit status plus the texts
subprocess.run(capture_output=True) collects from the two pipes. -/
structure ExecResult where
  return_code : Int
  stdout : String
  stderr : String
deriving DecidableEq

/-- Deterministic oracle giving the behaviour of the external child command
on each spawn configuration. -/
abbrev ExecOracle := RunConfig → ExecResult

/-- Python `==` on the frozen dataclass RunConfig: fieldwise equality, the
env field being compared as a dict. -/
def configEqb (a b : RunConfig) : Bool :=
  a.cmd == b.cmd && dictEqb a.env b.env && a.input == b.input && a.shell == b.shell
    && a.custom_cache_key == b.custom_cache_key

/-- Modelled from the spec: the on-disk KV backend (diskcache) is not part
of this repository; spec section 4.4 specifies the store abstractly as
get(fp) and put(fp, result). main.py passes the RunConfig itself as the
key, so the store is a key-value sequence over RunConfig keys. -/
abbrev Cache := List (RunConfig × RunResult)

/-- Modelled from the spec: store lookup, keys compared by RunConfig
equality. -/
def cacheGet (cache : Cache) (k : RunConfig) : Option RunResult :=
  (cache.find? (fun p => configEqb p.1 k)).map (fun p => p.2)

/-- Modelled from the spec: store write, replacing any prior value at an
equal key and otherwise appending the new entry. -/
def cacheSet (cache : Cache) (k : RunConfig) (v : RunResult) : Cache :=
  if cache.any (fun p => configEqb p.1 k) then
    cache.map (fun p => if configEqb p.1 k then (p.1, v) else p)
  else cache ++ [(k, v)]

/-- RunConfig._run_without_caching of main.py: record datetime.now() as
started_at, run the command via subprocess.run(capture_output=True), and
keep the return code and both captured texts. -/
def runWithoutCaching (cfg : RunConfig) (now : Int) (ex : ExecOracle) : RunResult :=
  ⟨now, (ex cfg).return_code, some (ex cfg).stdout, some (ex cfg).stderr⟩

/-- Environment used by the pre-invocation inside
RunConfig._compute_custom_cache_key: `{ **self.env, RUNCACHE_KEY: '1' }`. -/
def markedConfig (cfg : RunConfig) : RunConfig :=
  ⟨cfg.cmd, dictInsert cfg.env "RUNCACHE_KEY" "1", cfg.input, cfg.shell, cfg.custom_cache_key⟩

/-- RunConfig._compute_custom_cache_key of main.py: pre-invoke the command
with the RUNCACHE_KEY marker set and store the resulting stdout as the
custom_cache_key of a copy of the config. -/
def computeCustomCacheKey (cfg : RunConfig) (now : Int) (ex : ExecOracle) : RunConfig :=
  ⟨cfg.cmd, cfg.env, cfg.input, cfg.shell, (runWithoutCaching (markedConfig cfg) now ex).stdout⟩

/-- Execute-and-maybe-store path of run_with_caching (the elif branch): run
the child, write the result to the store iff return_code == 0 or
keep_failures, and report the spawned configuration. -/
def runAndMaybeStore (cfg : RunConfig) (cache : Cache) (args : CliArgsM) (now : Int)
    (ex : ExecOracle) : RunResult × Cache × List RunConfig :=
  if (runWithoutCaching cfg now ex).return_code == 0 || args.keep_failures then
    (runWithoutCaching cfg now ex, cacheSet cache cfg (runWithoutCaching cfg now ex), [cfg])
  else (runWithoutCaching cfg now ex, cache, [cfg])

/-- Non-recursive branch of RunConfig.run_with_caching: compute
min_started_at = now - ttl, replay a stored result iff one is present with
started_at at least min_started_at, otherwise execute and apply the store
policy. A RunResult instance is always truthy in Python, so the walrus
conditions of the source reduce to presence and freshness. -/
def runCore (cfg : RunConfig) (cache : Cache) (args : CliArgsM) (now : Int) (ex : ExecOracle) :
    RunResult × Cache × List RunConfig :=
  match cacheGet cache cfg with
  | some result =>
      if now - args.ttl ≤ result.started_at then (result, cache, [])
      else runAndMaybeStore cfg cache args now ex
  | none => runAndMaybeStore cfg cache args now ex

/-- RunConfig.run_with_caching of main.py, its recursion made explicit
through a fuel parameter mirroring the call depth: when custom_key is
requested and no custom_cache_key has been computed yet, compute one via
the pre-invocation and recurse, logging the spawned marked configuration in
front of the recursive call's spawns. -/
def runWithCachingFuel : Nat → RunConfig → Cache → CliArgsM → Int → ExecOracle →
    Option (RunResult × Cache × List RunConfig)
  | 0, _, _, _, _, _ => none
  | n + 1, cfg, cache, args, now, ex =>
      if args.custom_key && cfg.custom_cache_key.isNone then
        (runWithCachingFuel n (computeCustomCacheKey cfg now ex) cache args now ex).map
          (fun out => (out.1, out.2.1, markedConfig cfg :: out.2.2))
      else some (runCore cfg cache args now ex)

/-- RunConfig.run_with_caching: fuel 2 covers the recursion, which stops at
depth one (the recursive call always carries a computed custom_cache_key). -/
def run_with_caching (cfg : RunConfig) (cache : Cache) (args : CliArgsM) (now : Int)
    (ex : ExecOracle) : Option (RunResult × Cache × List RunConfig) :=
  runWithCachingFuel 2 cfg cache args now ex

/-- Disposition of the child's stdin under subprocess.run: with input=None
and no stdin argument the child inherits the parent's stdin; DEVNULL would
connect it to the null device; with input given the bytes are fed through a
pipe followed by EOF. -/
inductive StdinMode
  | inherit
  | devnull
  | fed (s : String)
deriving DecidableEq

/-- Argument record of the subprocess.run call issued by
RunConfig._run_without_caching. -/
structure SpawnCall where
  argsJoined : Option String
  argv : Option (List String)
  shell : Bool
  executable : Option String
  env : Env
  stdin : StdinMode
deriving DecidableEq

/-- Spawn arguments built by _run_without_caching: args is the space-joined
command when shell is set, else the argv list; executable is the SHELL
variable only when shell is set; env is passed verbatim; input=None leaves
stdin inherited, and input feeds the bytes then EOF. -/
def spawnCallOf (cfg : RunConfig) (shellVar : Option String) : SpawnCall :=
  ⟨ if cfg.shell then some (String.intercalate " " cfg.cmd) else none
  , if cfg.shell then none else some cfg.cmd
  , cfg.shell
  , if cfg.shell then shellVar else none
  , cfg.env
  , match cfg.input with
    | some s => StdinMode.fed s
    | none => StdinMode.inherit ⟩

/-- RunConfig construction in main.py's cli: shell and command from the
parsed flags, env as produced by the -e and -E filter actions, input read
from the parent's stdin only when the stdin flag is set. -/
def cliRunConfig (shell : Bool) (command : List String) (env : Env) (stdinFlag : Bool)
    (stdinData : String) : RunConfig :=
  ⟨command, env, if stdinFlag then some stdinData else none, shell, none⟩

/-- Stream tag of one captured chunk. -/
inductive StreamTag
  | stdout
  | stderr
deriving DecidableEq

/-- One chunk of child output, tagged with the stream it appeared on; a
list of these in the order the bytes became available to the parent is the
child's observable output behaviour. -/
structure OutEvent where
  tag : StreamTag
  chunk : String
deriving DecidableEq

/-- Text collected from the stdout pipe by
subprocess.run(capture_output=True): the stdout-tagged chunks concatenated
in arrival order; stderr chunks travel on the other pipe. -/
def capturedStdout : List OutEvent → String
  | [] => ""
  | e :: rest => (if e.tag = StreamTag.stdout then e.chunk else "") ++ capturedStdout rest

/-- Text collected from the stderr pipe, symmetrically. -/
def capturedStderr : List OutEvent → String
  | [] => ""
  | e :: rest => (if e.tag = StreamTag.stderr then e.chunk else "") ++ capturedStderr rest

/-- Merged byte sequence in the order the bytes became available to the
parent. -/
def arrivalSeq : List OutEvent → String
  | [] => ""
  | e :: rest => e.chunk ++ arrivalSeq rest

/-- RunResult built by _run_without_caching from a child whose observable
output is the given event list. -/
def runResultOfEvents (startedAt rc : Int) (evs : List OutEvent) : RunResult :=
  ⟨startedAt, rc, some (capturedStdout evs), some (capturedStderr evs)⟩

/-- Merged byte sequence emitted by RunResult.write: the whole stored
stdout first, then the whole stored stderr. An absent field writes nothing;
an empty string is falsy in Python and is skipped, emitting the same
bytes. -/
def writeSeq (r : RunResult) : String :=
  (match r.stdout with
    | some s => s
    | none => "") ++
  (match r.stderr with
    | some s => s
    | none => "")

/-- Filtering comprehension of CliArgs.EnvFilterer.__call__ in main.py:
keep a variable iff the option's value list is non-empty and the action's
filter accepts the variable against some comma-separated pattern. -/
def envFilterStep (filt : String → String → Bool) (values : List String) (curr : Env) : Env :=
  curr.filter (fun p => !values.isEmpty && values.any (fun glob => filt p.1 glob))

/-- One -e (include-env) option application: the filter is fnmatchcase. -/
def includeEnvStep (curr : Env) (values : List String) : Env :=
  envFilterStep (fun var glob => fnmatchcase var glob) values curr

/-- One -E (exclude-env) option application: the filter is
`lambda var, glob: not fnmatchcase(var, glob)`. -/
def excludeEnvStep (curr : Env) (values : List String) : Env :=
  envFilterStep (fun var glob => !(fnmatchcase var glob)) values curr

/-- EnvArg of utils/argparse.py: a pattern token with an optional assigned
value; matches(envvar) is fnmatchcase(envvar, self.envvar). -/
structure EnvArgM where
  name : String
  assigned_value : Option String
deriving DecidableEq

/-- EnvArg.matches of utils/argparse.py. -/
def envArgMatchesB (a : EnvArgM) (n : String) : Bool := fnmatchcase n a.name

/-- Assignment dict `{ arg.envvar: arg.assigned_value for arg in inclusions
if arg.assigned_value is not None }`, built left to right so a later
assignment to the same name overwrites an earlier one. -/
def assignmentsOf (inclusions : List EnvArgM) : Env :=
  inclusions.foldl
    (fun acc a =>
      match a.assigned_value with
      | some v => dictInsert acc a.name v
      | none => acc) []

/-- EnvArg.filter_envvars of utils/argparse.py: keep a process variable iff
some inclusion matches it and no exclusion matches it, taking the value
from the matching explicit assignment when one exists. -/
def filter_envvars (envvars : Env) (inclusions exclusions : List EnvArgM) : Env :=
  envvars.filterMap (fun p =>
    if inclusions.any (fun a => envArgMatchesB a p.1)
        && !(exclusions.any (fun a => envArgMatchesB a p.1)) then
      some (p.1, (dictGet (assignmentsOf inclusions) p.1).getD p.2)
    else none)

/-- Modelled from the spec: a match arg matches a name by literal equality
OR glob match, section 4.1. -/
def envArgMatchesSpec (a : EnvArgM) (n : String) : Bool :=
  a.name == n || fnmatchcase n a.name

/-- Modelled from the spec: SELECT(E, match, reject, assign) of section 4.1
with assign taken from the match list as in both derived maps: keys are
names of E together with explicitly assigned names, kept iff some match arg
matches and no reject arg matches, assigned values overriding E. -/
def selectSpec (procEnv : Env) (matchArgs rejectArgs : List EnvArgM) : Env :=
  (procEnv ++ matchArgs.filterMap (fun a =>
      if a.assigned_value.isSome && !(procEnv.any (fun p => p.1 == a.name)) then
        some (a.name, a.assigned_value.getD "")
      else none)).filterMap
    (fun p =>
      if matchArgs.any (fun a => envArgMatchesSpec a p.1)
          && !(rejectArgs.any (fun a => envArgMatchesSpec a p.1)) then
        some (p.1,
          (matchArgs.filterMap (fun a =>
            if a.name == p.1 then a.assigned_value else none)).headD p.2)
      else none)

/-- Modelled from the spec: the default passthru args HOME, PATH and
TMPDIR of the -p option. -/
def defaultPassthruArgs : List EnvArgM := [⟨"HOME", none⟩, ⟨"PATH", none⟩, ⟨"TMPDIR", none⟩]

/-- Modelled from the spec: the claimed child environment for a
shell=false spawn, sections 4.1 and 4.3: the cached map united with the
passthrough map, cached entries taking precedence. -/
def specChildEnv (procEnv : Env) (includeArgs passthruArgs excludeArgs : List EnvArgM) : Env :=
  selectSpec procEnv includeArgs excludeArgs ++
    (selectSpec procEnv passthruArgs excludeArgs).filter
      (fun p => !(selectSpec procEnv includeArgs excludeArgs).any (fun q => q.1 == p.1))

/-- Outcome of EnvArg.from_env_arg: a parsed token or a raised ValueError
message. -/
inductive EnvParse
  | ok (name : String) (value : Option String)
  | err (msg : String)
deriving DecidableEq

/-- Character that shlex tokenization treats specially (whitespace, single
and double quote, backslash, written by code point to keep the source
plain); a non-empty token free of these is returned unchanged as the single
element of shlex.split. -/
def shlexSpecialChar (c : Char) : Bool :=
  c == ' ' || c.toNat == 9 || c.toNat == 10 || c.toNat == 13
    || c.toNat == 39 || c.toNat == 34 || c.toNat == 92

/-- Plain token for which shlex.split(envarg) returns the token itself. -/
def shlexPlainToken (s : String) : Bool :=
  !s.isEmpty && s.toList.all (fun c => !shlexSpecialChar c)

/-- Literal string the source passes where a regex pattern was intended:
r'\w+' of args.py, a backslash, a w and a plus sign. -/
def wPlusLiteral : String := "\\w+"

/-- Word character in the sense of the regex class backslash-w. -/
def isWordChar (c : Char) : Bool := c.isAlphanum || c == '_'

/-- Python re.match(pattern, s), modelled for patterns made of word
characters only, where the pattern is a regex literal and match-at-start is
a prefix test; other patterns are left unmodelled (none). -/
def reMatchLit (pattern s : String) : Option Bool :=
  if pattern.toList.all isWordChar then some (List.isPrefixOf pattern.toList s.toList)
  else none

/-- Name part of a NAME=value token: `envarg_shlexed.split('=', maxsplit=1)[0]`. -/
def eqSplitName (envarg : String) : String :=
  ⟨envarg.toList.takeWhile (fun c => c != '=')⟩

/-- Value part of a NAME=value token: everything after the first equals sign. -/
def eqSplitValue (envarg : String) : String :=
  ⟨envarg.toList.drop ((envarg.toList.takeWhile (fun c => c != '=')).length + 1)⟩

/-- EnvArg.from_env_arg of args.py: shlex-unquote the token, detect an
equals sign, split NAME=value at the first equals sign, reject assignment
when not allowed, then test `re.match(name, r'\w+')` exactly as the source
writes it, with the user's NAME in pattern position and the literal string
backslash-w-plus in string position. Tokens outside the modelled shlex or
regex fragment give none. -/
def from_env_arg (envarg : String) (assignment_allowed : Bool) : Option EnvParse :=
  if !shlexPlainToken envarg then none
  else if envarg.toList.contains '=' then
    if !assignment_allowed then
      some (EnvParse.err ("Assignment not allowed in this context: " ++ envarg))
    else
      match reMatchLit (eqSplitName envarg) wPlusLiteral with
      | some true => some (EnvParse.ok (eqSplitName envarg) (some (eqSplitValue envarg)))
      | some false =>
          some (EnvParse.err ("Cannot assign value to envvars with wildcards: " ++ envarg))
      | none => none
  else some (EnvParse.ok envarg none)

/-- Equal dicts in the Boolean sense look up equally at every key. -/
theorem dictGet_eq_of_dictEqb {a b : Env} (h : dictEqb a b = true) (k : String) :
    dictGet a k = dictGet b k := by
  have h12 := h
  simp only [dictEqb, Bool.and_eq_true] at h12
  obtain ⟨h1, h2⟩ := h12
  cases hga : dictGet a k with
  | some v =>
      rcases Option.map_eq_some'.mp hga with ⟨q, hq, hv⟩
      have hmem := List.mem_of_find?_eq_some hq
      have hkey : q.1 = k := eq_of_beq (by simpa using List.find?_some hq)
      have hcl : (dictGet a q.1 == dictGet b q.1) = true := by
        simpa using List.all_eq_true.mp h1 q hmem
      rw [hkey] at hcl
      exact hga ▸ eq_of_beq hcl
  | none =>
      cases hgb : dictGet b k with
      | none => rfl
      | some w =>
          rcases Option.map_eq_some'.mp hgb with ⟨q, hq, hv⟩
          have hmem := List.mem_of_find?_eq_some hq
          have hkey : q.1 = k := eq_of_beq (by simpa using List.find?_some hq)
          have hcl : (dictGet a q.1 == dictGet b q.1) = true := by
            simpa using List.all_eq_true.mp h2 q hmem
          rw [hkey] at hcl
          exact hga ▸ hgb ▸ eq_of_beq hcl

/-- Lookup equality at every key gives Boolean dict equality. -/
theorem dictEqb_of_get {a b : Env} (h : ∀ k, dictGet a k = dictGet b k) :
    dictEqb a b = true := by
  simp only [dictEqb, Bool.and_eq_true, List.all_eq_true]
  constructor
  · intro p _
    rw [h p.1]
    simp
  · intro p _
    rw [h p.1]
    simp

/-- Propositional form of Python RunConfig equality. -/
def cEq (a b : RunConfig) : Prop :=
  a.cmd = b.cmd ∧ (∀ k, dictGet a.env k = dictGet b.env k) ∧ a.input = b.input
    ∧ a.shell = b.shell ∧ a.custom_cache_key = b.custom_cache_key

theorem configEqb_iff {a b : RunConfig} : configEqb a b = true ↔ cEq a b := by
  simp only [configEqb, Bool.and_eq_true, beq_iff_eq, cEq]
  constructor
  · rintro ⟨⟨⟨⟨h1, h2⟩, h3⟩, h4⟩, h5⟩
    exact ⟨h1, fun k => dictGet_eq_of_dictEqb h2 k, h3, h4, h5⟩
  · rintro ⟨h1, h2, h3, h4, h5⟩
    exact ⟨⟨⟨⟨h1, dictEqb_of_get h2⟩, h3⟩, h4⟩, h5⟩

theorem cEq_refl (a : RunConfig) : cEq a a := ⟨rfl, fun _ => rfl, rfl, rfl, rfl⟩

theorem cEq_symm {a b : RunConfig} (h : cEq a b) : cEq b a :=
  ⟨h.1.symm, fun k => (h.2.1 k).symm, h.2.2.1.symm, h.2.2.2.1.symm, h.2.2.2.2.symm⟩

theorem cEq_trans {a b c : RunConfig} (h1 : cEq a b) (h2 : cEq b c) : cEq a c :=
  ⟨h1.1.trans h2.1, fun k => (h1.2.1 k).trans (h2.2.1 k), h1.2.2.1.trans h2.2.2.1,
    h1.2.2.2.1.trans h2.2.2.2.1, h1.2.2.2.2.trans h2.2.2.2.2⟩

theorem configEqb_refl (a : RunConfig) : configEqb a a = true := configEqb_iff.mpr (cEq_refl a)

/-- Equal configs behave the same as right argument of the key test. -/
theorem configEqb_congr_right {k k' : RunConfig} (h : cEq k k') (x : RunConfig) :
    configEqb x k = configEqb x k' := by
  cases hx : configEqb x k with
  | true => exact (configEqb_iff.mpr (cEq_trans (configEqb_iff.mp hx) h)).symm
  | false =>
      cases hy : configEqb x k' with
      | false => rfl
      | true =>
          have hx' : configEqb x k = true :=
            configEqb_iff.mpr (cEq_trans (configEqb_iff.mp hy) (cEq_symm h))
          rw [hx] at hx'
          exact absurd hx' (by simp)

/-- Store lookup is invariant under replacing the key by an equal one. -/
theorem cacheGet_congr_right (c : Cache) {k k' : RunConfig} (h : cEq k k') :
    cacheGet c k = cacheGet c k' := by
  induction c with
  | nil => rfl
  | cons p t ih =>
      cases hb : configEqb p.1 k' with
      | true =>
          have hbk : configEqb p.1 k = true := by rw [configEqb_congr_right h p.1, hb]
          simp [cacheGet, hbk, hb]
      | false =>
          have hbk : configEqb p.1 k = false := by rw [configEqb_congr_right h p.1, hb]
          simpa [cacheGet, hbk, hb] using ih

/-- Generic replace-or-append write followed by a lookup with the same key
test finds the written value; shared shape of cacheSet and dictInsert. -/
theorem getSetPair {α β : Type} (pk : α → Bool) (k : α) (v : β) (hk : pk k = true) :
    ∀ l : List (α × β),
      ((if l.any (fun p => pk p.1) then l.map (fun p => if pk p.1 then (p.1, v) else p)
          else l ++ [(k, v)]).find? (fun p => pk p.1)).map (fun p => p.2) = some v := by
  intro l
  induction l with
  | nil => simp [hk]
  | cons p t ih =>
      by_cases hp : pk p.1 = true
      · simp [hp]
      · have hp' : pk p.1 = false := by simpa using hp
        by_cases hany : t.any (fun q => pk q.1) = true
        · simpa [hp', hany] using ih
        · have hany' : t.any (fun q => pk q.1) = false := by simpa using hany
          simpa [hp', hany'] using ih

/-- Looking up the key just written returns the written value. -/
theorem cacheGet_cacheSet_self (c : Cache) (k : RunConfig) (v : RunResult) :
    cacheGet (cacheSet c k v) k = some v :=
  getSetPair (fun x => configEqb x k) k v (configEqb_refl k) c

/-- Inserting a binding makes it visible at its key. -/
theorem dictGet_dictInsert_self (e : Env) (k v : String) :
    dictGet (dictInsert e k v) k = some v :=
  getSetPair (fun x => x == k) k v (by simp) e

/-- Permuting an association list with distinct keys does not change any
lookup: this is the dict-equality content of shuffled insertion order. -/
theorem dictGet_perm {l1 l2 : Env} (h : l1.Perm l2) :
    (l1.map Prod.fst).Nodup → ∀ k, dictGet l1 k = dictGet l2 k := by
  induction h with
  | nil => intro _ _; rfl
  | cons p hperm ih =>
      intro hnd k
      rw [List.map_cons] at hnd
      have hnd' := (List.nodup_cons.mp hnd).2
      cases hp : (p.1 == k) with
      | true => simp [dictGet, hp]
      | false => simpa [dictGet, hp] using ih hnd' k
  | swap x y l =>
      intro hnd k
      rw [List.map_cons, List.map_cons] at hnd
      have h1 : y.1 ∉ x.1 :: List.map Prod.fst l := (List.nodup_cons.mp hnd).1
      have hxy : y.1 ≠ x.1 := fun he => h1 (by rw [he]; exact List.mem_cons_self _ _)
      cases hy : (y.1 == k) with
      | true =>
          cases hx : (x.1 == k) with
          | true => exact absurd ((eq_of_beq hy).trans (eq_of_beq hx).symm) hxy
          | false => simp [dictGet, hy, hx]
      | false =>
          cases hx : (x.1 == k) with
          | true => simp [dictGet, hy, hx]
          | false => simp [dictGet, hy, hx]
  | trans h1 h2 ih1 ih2 =>
      intro hnd k
      exact (ih1 hnd k).trans (ih2 (((h1.map Prod.fst).nodup_iff).mp hnd) k)

/-- With the custom-key path disabled, run_with_caching is the
non-recursive core. -/
theorem run_with_caching_plain (cfg : RunConfig) (cache : Cache) (args : CliArgsM)
    (now : Int) (ex : ExecOracle) (hck : args.custom_key = false) :
    run_with_caching cfg cache args now ex = some (runCore cfg cache args now ex) := by
  simp [run_with_caching, runWithCachingFuel, hck]

/-- C1 counterexample: at exactly now - started_at = ttl the stored result
is replayed with no spawn, although the claim's strict freshness bound
now - started_at < ttl classifies the entry as stale and demands a rerun. -/
theorem ttl_boundary_cx :
    run_with_caching ⟨["c"], [], none, false, none⟩
        [(⟨["c"], [], none, false, none⟩, ⟨0, 0, some "old", some ""⟩)]
        ⟨60, false, false⟩ 60 (fun _ => ⟨0, "new", ""⟩)
      = some (⟨0, 0, some "old", some ""⟩,
          [(⟨["c"], [], none, false, none⟩, ⟨0, 0, some "old", some ""⟩)], [])
      ∧ ¬((60 : Int) - 0 < 60) := by decide

/-- C1 (amended): with the custom-key path disabled and a stored result
present for the config, run_with_caching replays the stored result with no
spawn exactly when now - started_at ≤ ttl (the source accepts the boundary
instant), and otherwise executes the child, applies the store policy, and
returns the fresh result. -/
theorem run_with_caching_ttl (cfg : RunConfig) (cache : Cache) (args : CliArgsM)
    (now : Int) (ex : ExecOracle) (hck : args.custom_key = false)
    (r : RunResult) (hr : cacheGet cache cfg = some r) :
    (run_with_caching cfg cache args now ex = some (r, cache, []) ↔
        now - r.started_at ≤ args.ttl)
      ∧ (args.ttl < now - r.started_at →
          run_with_caching cfg cache args now ex =
            some (runWithoutCaching cfg now ex,
              if (runWithoutCaching cfg now ex).return_code == 0 || args.keep_failures then
                cacheSet cache cfg (runWithoutCaching cfg now ex)
              else cache,
              [cfg])) := by
  have hplain := run_with_caching_plain cfg cache args now ex hck
  by_cases hf : now - args.ttl ≤ r.started_at
  · constructor
    · constructor
      · intro _; omega
      · intro _
        rw [hplain]
        simp [runCore, hr, hf]
    · intro hlt
      exact absurd hf (by omega)
  · constructor
    · constructor
      · intro heq
        rw [hplain] at heq
        simp only [runCore, hr] at heq
        rw [if_neg hf] at heq
        simp only [runAndMaybeStore] at heq
        by_cases hc : ((runWithoutCaching cfg now ex).return_code == 0 || args.keep_failures) = true
        · rw [if_pos hc] at heq
          simp at heq
        · rw [if_neg hc] at heq
          simp at heq
      · intro hle
        exact absurd hle (by omega)
    · intro _
      rw [hplain]
      simp only [runCore, hr]
      rw [if_neg hf]
      simp only [runAndMaybeStore]
      by_cases hc : ((runWithoutCaching cfg now ex).return_code == 0 || args.keep_failures) = true
      · rw [if_pos hc, if_pos hc]
      · rw [if_neg hc, if_neg hc]

/-- C1 witness: the amended theorem evaluated on a concrete fresh hit. -/
theorem run_with_caching_ttl_witness :
    run_with_caching ⟨["c"], [], none, false, none⟩
        [(⟨["c"], [], none, false, none⟩, ⟨50, 0, some "o", some ""⟩)]
        ⟨60, false, false⟩ 60 (fun _ => ⟨0, "n", ""⟩)
      = some (⟨50, 0, some "o", some ""⟩,
          [(⟨["c"], [], none, false, none⟩, ⟨50, 0, some "o", some ""⟩)], []) :=
  ((run_with_caching_ttl ⟨["c"], [], none, false, none⟩
      [(⟨["c"], [], none, false, none⟩, ⟨50, 0, some "o", some ""⟩)]
      ⟨60, false, false⟩ 60 (fun _ => ⟨0, "n", ""⟩) rfl
      ⟨50, 0, some "o", some ""⟩ (by decide)).1).mpr (by decide)

/-- C2: two RunConfigs whose Python tuples of cacheable fields compare
equal — in particular whose env dicts hold the same bindings in shuffled
insertion order — are the same cache key: RunConfig equality holds and a
result stored under one is found under the other. -/
theorem cache_key_env_equiv (c1 c2 : RunConfig) (cache : Cache) (r : RunResult)
    (hcmd : c1.cmd = c2.cmd)
    (henv : c1.env.Perm c2.env ∧ (c1.env.map Prod.fst).Nodup ∨
        ∀ k, dictGet c1.env k = dictGet c2.env k)
    (hin : c1.input = c2.input) (hsh : c1.shell = c2.shell)
    (hkk : c1.custom_cache_key = c2.custom_cache_key) :
    configEqb c1 c2 = true ∧ cacheGet (cacheSet cache c1 r) c2 = some r := by
  have hget : ∀ k, dictGet c1.env k = dictGet c2.env k := by
    rcases henv with ⟨hp, hnd⟩ | hg
    · exact fun k => dictGet_perm hp hnd k
    · exact hg
  have hceq : cEq c1 c2 := ⟨hcmd, hget, hin, hsh, hkk⟩
  refine ⟨configEqb_iff.mpr hceq, ?_⟩
  rw [← cacheGet_congr_right (cacheSet cache c1 r) hceq]
  exact cacheGet_cacheSet_self cache c1 r

/-- C2 witness: a concrete pair of configs with the env entries swapped:
the stored result is found under the shuffled config. -/
theorem cache_key_env_equiv_witness :
    configEqb ⟨["c"], [("A", "1"), ("B", "2")], none, false, none⟩
        ⟨["c"], [("B", "2"), ("A", "1")], none, false, none⟩ = true
      ∧ cacheGet
          (cacheSet [] ⟨["c"], [("A", "1"), ("B", "2")], none, false, none⟩
            ⟨7, 0, some "x", some ""⟩)
          ⟨["c"], [("B", "2"), ("A", "1")], none, false, none⟩
        = some ⟨7, 0, some "x", some ""⟩ :=
  cache_key_env_equiv ⟨["c"], [("A", "1"), ("B", "2")], none, false, none⟩
    ⟨["c"], [("B", "2"), ("A", "1")], none, false, none⟩ [] ⟨7, 0, some "x", some ""⟩
    rfl (Or.inl ⟨List.Perm.swap ("B", "2") ("A", "1") [], by decide⟩) rfl rfl rfl

/-- C3 counterexample: with a stale entry already stored, a failing rerun
under keep_failures=false leaves that entry in place, so the store still
contains an entry for the config's key although the return code was
non-zero and keep_failures was false. -/
theorem failure_keep_stale_cx :
    run_with_caching ⟨["c"], [], none, false, none⟩
        [(⟨["c"], [], none, false, none⟩, ⟨0, 0, some "old", some ""⟩)]
        ⟨10, false, false⟩ 100 (fun _ => ⟨7, "fresh", ""⟩)
      = some (⟨100, 7, some "fresh", some ""⟩,
          [(⟨["c"], [], none, false, none⟩, ⟨0, 0, some "old", some ""⟩)],
          [⟨["c"], [], none, false, none⟩])
      ∧ cacheGet [(⟨["c"], [], none, false, none⟩, ⟨0, 0, some "old", some ""⟩)]
          ⟨["c"], [], none, false, none⟩ = some ⟨0, 0, some "old", some ""⟩
      ∧ ((7 : Int) = 0 ∨ (false : Bool) = true → False) := by decide

/-- C3 (amended): when the lookup misses or is stale so the child runs, the
fresh result is returned and it is written to the store iff return_code is
zero or keep_failures is set; a failing run without keep_failures leaves
the store exactly unchanged — so a key absent before stays absent — though
a pre-existing stale entry is not deleted. -/
theorem store_policy_after_execution (cfg : RunConfig) (cache : Cache) (args : CliArgsM)
    (now : Int) (ex : ExecOracle) (hck : args.custom_key = false)
    (hstale : ∀ r, cacheGet cache cfg = some r → args.ttl < now - r.started_at) :
    (((runWithoutCaching cfg now ex).return_code == 0 || args.keep_failures) = true →
        run_with_caching cfg cache args now ex =
            some (runWithoutCaching cfg now ex,
              cacheSet cache cfg (runWithoutCaching cfg now ex), [cfg])
          ∧ cacheGet (cacheSet cache cfg (runWithoutCaching cfg now ex)) cfg =
              some (runWithoutCaching cfg now ex))
      ∧ (((runWithoutCaching cfg now ex).return_code == 0 || args.keep_failures) = false →
          run_with_caching cfg cache args now ex =
            some (runWithoutCaching cfg now ex, cache, [cfg])) := by
  have hplain := run_with_caching_plain cfg cache args now ex hck
  have hcore : runCore cfg cache args now ex = runAndMaybeStore cfg cache args now ex := by
    cases hlook : cacheGet cache cfg with
    | none => simp [runCore, hlook]
    | some r =>
        have hst := hstale r hlook
        have hneg : ¬(now - args.ttl ≤ r.started_at) := by omega
        simp only [runCore, hlook]
        rw [if_neg hneg]
  constructor
  · intro hc
    refine ⟨?_, cacheGet_cacheSet_self cache cfg _⟩
    rw [hplain, hcore]
    simp [runAndMaybeStore, hc]
  · intro hc
    rw [hplain, hcore]
    simp [runAndMaybeStore, hc]

/-- C3 witness: a failing run against an empty store returns the failure
and stores nothing. -/
theorem store_policy_after_execution_witness :
    run_with_caching ⟨["c"], [], none, false, none⟩ [] ⟨10, false, false⟩ 5
        (fun _ => ⟨7, "f", ""⟩)
      = some (⟨5, 7, some "f", some ""⟩, [], [⟨["c"], [], none, false, none⟩]) :=
  (store_policy_after_execution ⟨["c"], [], none, false, none⟩ [] ⟨10, false, false⟩ 5
      (fun _ => ⟨7, "f", ""⟩) rfl (fun r hr => by simp [cacheGet] at hr)).2 (by decide)

/-- C4 counterexample: a child that emits bar on stderr before foo on
stdout is stored as two separate per-stream texts and replayed stdout
first, so the earlier-arrived stderr bytes come after the later stdout
bytes: the merged replay differs from the arrival order. -/
theorem capture_merge_order_cx :
    arrivalSeq [⟨StreamTag.stderr, "bar"⟩, ⟨StreamTag.stdout, "foo"⟩] = "barfoo"
      ∧ writeSeq (runResultOfEvents 0 0 [⟨StreamTag.stderr, "bar"⟩, ⟨StreamTag.stdout, "foo"⟩])
          = "foobar"
      ∧ ("foobar" : String) ≠ "barfoo" := by decide

/-- C4 (amended): capture preserves order within each stream separately —
the stored stdout and stderr texts are the per-stream chunks concatenated
in arrival order — and replay emits the whole stored stdout followed by the
whole stored stderr rather than the cross-stream arrival interleaving. -/
theorem capture_per_stream_order (evs : List OutEvent) (t rc : Int) :
    capturedStdout evs = arrivalSeq (evs.filter (fun e => decide (e.tag = StreamTag.stdout)))
      ∧ capturedStderr evs = arrivalSeq (evs.filter (fun e => decide (e.tag = StreamTag.stderr)))
      ∧ writeSeq (runResultOfEvents t rc evs) = capturedStdout evs ++ capturedStderr evs := by
  refine ⟨?_, ?_, rfl⟩
  · induction evs with
    | nil => rfl
    | cons e rest ih =>
        cases he : e.tag <;> simp [capturedStdout, arrivalSeq, List.filter_cons, he, ih]
  · induction evs with
    | nil => rfl
    | cons e rest ih =>
        cases he : e.tag <;> simp [capturedStderr, arrivalSeq, List.filter_cons, he, ih]

/-- C5 counterexample: with shell false and an env filter that matched
nothing, the spawn receives the empty environment even though the parent
environment carries HOME, while the spec's child environment passes HOME
through by default. -/
theorem child_env_passthru_cx :
    (spawnCallOf (cliRunConfig false ["true"] [] false "") none).env = []
      ∧ specChildEnv [("HOME", "/root")] [⟨"NONEXISTENT", none⟩] defaultPassthruArgs []
          = [("HOME", "/root")]
      ∧ dictGet [] "HOME" ≠ dictGet [("HOME", "/root")] "HOME" := by decide

/-- C5 (amended): for shell=false the spawn passes the config's single env
mapping verbatim as the whole child environment and the command as argv;
main.py keeps no separate passthru map and injects no HOME, PATH or TMPDIR
defaults. -/
theorem spawn_env_exact (command : List String) (envL : Env) (stdinFlag : Bool)
    (stdinData : String) (shellVar : Option String) :
    (spawnCallOf (cliRunConfig false command envL stdinFlag stdinData) shellVar).env = envL
      ∧ (spawnCallOf (cliRunConfig false command envL stdinFlag stdinData) shellVar).argv
          = some command
      ∧ (spawnCallOf (cliRunConfig false command envL stdinFlag stdinData) shellVar).executable
          = none :=
  ⟨rfl, rfl, rfl⟩

/-- C6: main.py's exclude-env action keeps a variable whenever any single
exclude pattern fails to match it, so after -e star -E FOO,BAR both FOO and
BAR survive, while the include-and-not-exclude semantics implemented by
EnvArg.filter_envvars in utils/argparse.py removes both. -/
theorem env_exclude_filter_bug :
    excludeEnvStep (includeEnvStep [("FOO", "1"), ("BAR", "2")] ["*"]) ["FOO", "BAR"]
        = [("FOO", "1"), ("BAR", "2")]
      ∧ filter_envvars [("FOO", "1"), ("BAR", "2")] [⟨"*", none⟩]
          [⟨"FOO", none⟩, ⟨"BAR", none⟩] = []
      ∧ selectSpec [("FOO", "1"), ("BAR", "2")] [⟨"*", none⟩]
          [⟨"FOO", none⟩, ⟨"BAR", none⟩] = [] := by decide

/-- C7: args.py swaps the arguments of re.match, testing the user's NAME as
a regex against the literal string backslash-w-plus, so the plain
assignment FOO=bar is rejected as a wildcard assignment instead of parsing
to an EnvArg with name FOO and value bar. -/
theorem env_assign_literal_rejected :
    from_env_arg "FOO=bar" true =
        some (EnvParse.err "Cannot assign value to envvars with wildcards: FOO=bar")
      ∧ from_env_arg "FOO=bar" true ≠ some (EnvParse.ok "FOO" (some "bar")) := by decide

/-- C8 counterexample: with input absent, the spawn leaves the child's
stdin inherited from the parent rather than connected to the null
device. -/
theorem stdin_absent_inherit_cx :
    (spawnCallOf ⟨["true"], [], none, false, none⟩ none).stdin = StdinMode.inherit
      ∧ StdinMode.inherit ≠ StdinMode.devnull := by decide

/-- C8 (amended): the spawn feeds the full input followed by EOF when input
is present, and otherwise leaves the child's stdin inherited from the
parent; the null device is never used. -/
theorem spawn_stdin_modes (cfg : RunConfig) (shellVar : Option String) :
    (spawnCallOf cfg shellVar).stdin =
        (match cfg.input with
          | some s => StdinMode.fed s
          | none => StdinMode.inherit)
      ∧ (spawnCallOf cfg shellVar).stdin ≠ StdinMode.devnull := by
  cases h : cfg.input <;> simp [spawnCallOf, h]

/-- C9: a fresh cache hit performs no store write: the returned store is
exactly the one passed in — same keys, same values — and nothing is
spawned. -/
theorem fresh_hit_no_write (cfg : RunConfig) (cache : Cache) (args : CliArgsM)
    (now : Int) (ex : ExecOracle) (hck : args.custom_key = false) (r : RunResult)
    (hr : cacheGet cache cfg = some r) (hfresh : now - args.ttl ≤ r.started_at) :
    run_with_caching cfg cache args now ex = some (r, cache, []) := by
  rw [run_with_caching_plain cfg cache args now ex hck]
  simp [runCore, hr, hfresh]

/-- C9 witness: a concrete fresh hit leaves the one-entry store intact. -/
theorem fresh_hit_no_write_witness :
    run_with_caching ⟨["w"], [("K", "V")], some "in", true, none⟩
        [(⟨["w"], [("K", "V")], some "in", true, none⟩, ⟨90, 0, some "out", some "err"⟩)]
        ⟨30, false, true⟩ 100 (fun _ => ⟨1, "x", "y"⟩)
      = some (⟨90, 0, some "out", some "err"⟩,
          [(⟨["w"], [("K", "V")], some "in", true, none⟩, ⟨90, 0, some "out", some "err"⟩)],
          []) :=
  fresh_hit_no_write ⟨["w"], [("K", "V")], some "in", true, none⟩
    [(⟨["w"], [("K", "V")], some "in", true, none⟩, ⟨90, 0, some "out", some "err"⟩)]
    ⟨30, false, true⟩ 100 (fun _ => ⟨1, "x", "y"⟩) rfl ⟨90, 0, some "out", some "err"⟩
    (by decide) (by decide)

/-- C10: with custom_key set and no custom key computed yet, the command is
pre-invoked once with RUNCACHE_KEY bound to 1 — before any cache lookup and
for every store contents, so even a fresh hit spawns this pre-invocation,
whose marked config heads the spawn log — and the single recursive call
carries a non-None custom_cache_key, hence takes the non-recursive branch:
the recursion ends at depth one with the core result. -/
theorem custom_key_preinvoke_depth_one (cfg : RunConfig) (cache : Cache) (args : CliArgsM)
    (now : Int) (ex : ExecOracle) (hck : args.custom_key = true)
    (h0 : cfg.custom_cache_key = none) :
    dictGet (markedConfig cfg).env "RUNCACHE_KEY" = some "1"
      ∧ (computeCustomCacheKey cfg now ex).custom_cache_key.isSome = true
      ∧ run_with_caching cfg cache args now ex =
          some ((runCore (computeCustomCacheKey cfg now ex) cache args now ex).1,
            (runCore (computeCustomCacheKey cfg now ex) cache args now ex).2.1,
            markedConfig cfg :: (runCore (computeCustomCacheKey cfg now ex) cache args now ex).2.2) := by
  refine ⟨dictGet_dictInsert_self cfg.env "RUNCACHE_KEY" "1", rfl, ?_⟩
  simp [run_with_caching, runWithCachingFuel, hck, h0, computeCustomCacheKey,
    runWithoutCaching]

/-- C10 witness: one concrete custom-key invocation against an empty store:
the marked pre-invocation heads the spawn log, then the keyed config runs
and is stored. -/
theorem custom_key_preinvoke_depth_one_witness :
    run_with_caching ⟨["c"], [], none, false, none⟩ [] ⟨60, true, false⟩ 0
        (fun _ => ⟨0, "key", ""⟩)
      = some (⟨0, 0, some "key", some ""⟩,
          [(⟨["c"], [], none, false, some "key"⟩, ⟨0, 0, some "key", some ""⟩)],
          [⟨["c"], [("RUNCACHE_KEY", "1")], none, false, none⟩,
            ⟨["c"], [], none, false, some "key"⟩]) :=
  (custom_key_preinvoke_depth_one ⟨["c"], [], none, false, none⟩ [] ⟨60, true, false⟩ 0
      (fun _ => ⟨0, "key", ""⟩) rfl rfl).2.2

end Runcached
